import Mathlib

/-!
Shallow embedding of `src/index.ts` of the moon-ci-retrospect action:
a pipeline that loads a moon run report, normalizes its `run-task`
actions into task-result records, streams them as console groups, and
optionally publishes a GitHub Actions summary document.

Strings are modelled as Lean `String`; JavaScript string operations
(`split`, `trim`, `replace`) are given explicit character-level models.
The filesystem is a map from paths to optional file contents; JSON
parsing is an abstract fallible function.  Statuses are plain strings so
that values outside the `ActionStatus` enumeration are expressible.
-/

namespace Retrospect

/-- JS `String.prototype.split` with a single-character separator, on
character lists. `"".split(sep)` is `[""]`, so the result is never
empty. -/
def splitChars (sep : Char) : List Char → List (List Char)
  | [] => [[]]
  | c :: cs =>
    if c = sep then [] :: splitChars sep cs
    else
      match splitChars sep cs with
      | [] => [[c]]
      | r :: rs => (c :: r) :: rs

/-- JS `target.split(sep)` on strings (single-character separator). -/
def jsSplit (s : String) (sep : Char) : List String :=
  (splitChars sep s.data).map (fun cs => String.mk cs)

/-- Whitespace characters removed by JS `String.prototype.trim`
(the ASCII ones plus NBSP, BOM and the line/paragraph separators). -/
def isJsWhitespace (c : Char) : Bool :=
  c = ' ' || c = '\t' || c = '\n' || c = '\r' || c = '\x0b' || c = '\x0c' ||
  c = ' ' || c = '﻿'

/-- JS `s.trim()`: strip leading and trailing whitespace. -/
def jsTrim (s : String) : String :=
  String.mk (((s.data.dropWhile isJsWhitespace).reverse.dropWhile isJsWhitespace).reverse)

/-- JS truthiness of `string | undefined` (used by `command || "-"` and
`if (result.command)`): `undefined` and the empty string are falsy. -/
def jsTruthy : Option String → Bool
  | none => false
  | some s => s != ""

/-- `path.join(a, b)` for the simple relative segments used here. -/
def pathJoin (a b : String) : String := a ++ "/" ++ b

/-- `interface TargetIdentity { task; project }` from `src/index.ts`. -/
structure TargetIdentity where
  project : String
  task : String
deriving DecidableEq, Repr

/-- `sanitizeProjectName`: `project.replace(/\//g, "-")` — every `/` in
the project name becomes `-`. -/
def sanitizeProjectName (project : String) : String :=
  String.mk (project.data.map (fun c => if c = '/' then '-' else c))

/-- `parseTarget`: split the target on `":"`; `parts[0] ?? "unknown"`
and `parts[1] ?? "unknown"`. -/
def parseTarget (target : String) : TargetIdentity :=
  let parts := jsSplit target ':'
  let project := (parts.get? 0).getD "unknown"
  let task := (parts.get? 1).getD "unknown"
  { project, task }

/-- `getStatusEmoji`: the `switch` over the action status. -/
def getStatusEmoji (status : String) : String :=
  if status == "passed" then "✅"
  else if status == "failed" || status == "timed-out" || status == "aborted" ||
      status == "invalid" || status == "failed-and-abort" then "❌"
  else if status == "skipped" then "⏭️"
  else if status == "cached" || status == "cached-from-remote" then "💾"
  else if status == "running" then "🏃"
  else "❓"

/-- ANSI helper `bgGreen`. -/
def bgGreen (text : String) : String := "\x1b[42m" ++ text ++ "\x1b[49m"

/-- ANSI helper `bgRed`. -/
def bgRed (text : String) : String := "\x1b[41m" ++ text ++ "\x1b[49m"

/-- ANSI helper `bgBlue`. -/
def bgBlue (text : String) : String := "\x1b[44m" ++ text ++ "\x1b[49m"

/-- ANSI helper `bgDarkGray`. -/
def bgDarkGray (text : String) : String := "\x1b[48;5;236m" ++ text ++ "\x1b[49m"

/-- ANSI helper `bold`. -/
def bold (text : String) : String := "\x1b[1m" ++ text ++ "\x1b[22m"

/-- ANSI helper `green`. -/
def green (text : String) : String := "\x1b[32m" ++ text ++ "\x1b[39m"

/-- ANSI helper `red`. -/
def red (text : String) : String := "\x1b[31m" ++ text ++ "\x1b[39m"

/-- ANSI helper `blue`. -/
def blue (text : String) : String := "\x1b[34m" ++ text ++ "\x1b[39m"

/-- The ten `ActionStatus` enumeration values (keys of `statusBadges`). -/
def actionStatusValues : List String :=
  ["running", "passed", "failed", "timed-out", "aborted", "invalid",
   "failed-and-abort", "skipped", "cached", "cached-from-remote"]

/-- `statusBadges`: a `Record<ActionStatus, string>` object literal.
JS property lookup on a key outside the record yields `undefined`,
modelled as `none`. -/
def statusBadges (status : String) : Option String :=
  if status == "running" then some (bgGreen " RUNNING ")
  else if status == "passed" then some (bgGreen " PASS ")
  else if status == "failed" then some (bgRed " FAIL ")
  else if status == "timed-out" then some (bgRed " TIMED OUT ")
  else if status == "aborted" then some (bgRed " ABORTED ")
  else if status == "invalid" then some (bgRed " INVALID ")
  else if status == "failed-and-abort" then some (bgRed " FAILED AND ABORT ")
  else if status == "skipped" then some (bgBlue " SKIP ")
  else if status == "cached" then some (bgBlue " CACHED ")
  else if status == "cached-from-remote" then some (bgBlue " REMOTE CACHED ")
  else none

/-- `stdBadges.out`. -/
def stdBadgeOut : String := bgDarkGray ("　" ++ green "⏺" ++ " STDOUT　")

/-- `stdBadges.err`. -/
def stdBadgeErr : String := bgDarkGray ("　" ++ red "⏺" ++ " STDERR　")

/-- One entry of an action's `operations` array: its `meta.type`
discriminant and the optional `meta.command` of task-execution
operations. -/
structure Operation where
  metaType : String
  command : Option String
deriving DecidableEq, Repr

/-- An `Action` of the run report: the node's action kind, the
`node.params.target` string of run-task nodes, the final `status`, and
the `operations` sequence. -/
structure Action where
  nodeAction : String
  target : String
  status : String
  operations : List Operation
deriving DecidableEq, Repr

/-- `RunReport`: the parsed artifact, `{ actions: Action[] }`. -/
structure RunReport where
  actions : List Action
deriving DecidableEq, Repr

/-- The filesystem as seen through `stat`/`readFile`: a path either has
contents (`some`) or does not exist (`none`). -/
structure FileSystem where
  read : String → Option String

/-- `fileExists`: `stat` succeeds exactly when the path exists. -/
def fileExists (fs : FileSystem) (p : String) : Bool := (fs.read p).isSome

/-- `commandOf`: scan `action.operations` for the first operation whose
`meta.type` is `"task-execution"` and return its `command`; `undefined`
when none is found. -/
def commandOf (action : Action) : Option String :=
  match action.operations.find? (fun op => op.metaType == "task-execution") with
  | some op => op.command
  | none => none

/-- `readStatus`: derive the state directory from the sanitized project
name and task, then read `stdout.log` and `stderr.log` independently,
each falling back to `""` when the file does not exist. -/
def readStatus (fs : FileSystem) (workspaceRoot : String) (t : TargetIdentity) :
    String × String :=
  let sanitizedProject := sanitizeProjectName t.project
  let statusDir :=
    workspaceRoot ++ "/.moon/cache/states/" ++ sanitizedProject ++ "/" ++ t.task
  let stdoutPath := statusDir ++ "/stdout.log"
  let stderrPath := statusDir ++ "/stderr.log"
  let stdout := if fileExists fs stdoutPath then (fs.read stdoutPath).getD "" else ""
  let stderr := if fileExists fs stderrPath then (fs.read stderrPath).getD "" else ""
  (stdout, stderr)

/-- The normalized per-task record pushed onto `taskResults` in `main`. -/
structure TaskResult where
  target : String
  status : String
  command : Option String
  hasStdout : Bool
  hasStderr : Bool
  stdout : Option String
  stderr : Option String
deriving DecidableEq, Repr

/-- One collapsible console group: the `core.startGroup` label and the
`console.log` lines printed inside it. -/
structure ConsoleGroup where
  label : String
  lines : List String
deriving DecidableEq, Repr

/-- One element appended to the `core.summary` buffer. -/
inductive SummaryItem where
  | heading (text : String) (level : Nat)
  | raw (text : String)
  | table (rows : List (List (String × Bool)))
  | codeBlock (code : String) (lang : String)
  | brk
deriving DecidableEq, Repr

/-- The body of `main`'s loop for one qualifying action: parse the
target, re-join it, extract the command, read the log streams, and build
the record with output fields present only when the trimmed stream is
non-empty (in TS, `command` is stored only when it is a string, which
the `Option` already captures). -/
def makeTaskResult (fs : FileSystem) (root : String) (action : Action) : TaskResult :=
  let t := parseTarget action.target
  let target := t.project ++ ":" ++ t.task
  let command := commandOf action
  let streams := readStatus fs root t
  let stdout := streams.fst
  let stderr := streams.snd
  let hasStdout := jsTrim stdout != ""
  let hasStderr := jsTrim stderr != ""
  { target, status := action.status, command,
    hasStdout, hasStderr,
    stdout := if hasStdout then some stdout else none,
    stderr := if hasStderr then some stderr else none }

/-- Console rendering of one record, exactly as the loop prints it:
group label from the badge record (an out-of-enumeration status
interpolates as the string `"undefined"`) and the bold target; then the
command line, the stdout badge and text, and the stderr badge and
text, each when present. -/
def renderConsole (r : TaskResult) : ConsoleGroup :=
  { label := (match statusBadges r.status with
      | some b => b
      | none => "undefined") ++ " " ++ bold r.target,
    lines :=
      (match r.command with
        | some c => [blue ("$ " ++ c)]
        | none => []) ++
      (if r.hasStdout then [stdBadgeOut, r.stdout.getD ""] else []) ++
      (if r.hasStderr then [stdBadgeErr, r.stderr.getD ""] else []) }

/-- `main`'s `for` loop over `report.actions`: skip non-`run-task`
actions; for each qualifying action push the record and emit its console
group, in order. -/
def processActions (fs : FileSystem) (root : String) :
    List Action → List TaskResult × List ConsoleGroup
  | [] => ([], [])
  | action :: rest =>
    if action.nodeAction == "run-task" then
      let r := makeTaskResult fs root action
      let tail := processActions fs root rest
      (r :: tail.fst, renderConsole r :: tail.snd)
    else processActions fs root rest

/-- One row of the summary table (`tableRows`): target, emoji plus raw
status, `command || "-"`, and the captured-output list joined with
`", "` or `"-"`. -/
def tableRow (r : TaskResult) : List (String × Bool) :=
  let outputs := (if r.hasStdout then ["📤 stdout"] else []) ++
    (if r.hasStderr then ["📥 stderr"] else [])
  [(r.target, false),
   (getStatusEmoji r.status ++ " " ++ r.status, false),
   (if jsTruthy r.command then r.command.getD "" else "-", false),
   (if (String.intercalate ", " outputs) != "" then String.intercalate ", " outputs else "-", false)]

/-- The header row of the summary table. -/
def tableHeader : List (String × Bool) :=
  [("Task", true), ("Status", true), ("Command", true), ("Outputs", true)]

/-- The per-task detail section appended after the table: a level-3
heading, the fenced command (when truthy), and the STDOUT/STDERR
sub-sections when captured, ended by a break. -/
def detailSection (r : TaskResult) : List SummaryItem :=
  [SummaryItem.heading ("Task: " ++ r.target) 3] ++
  (if jsTruthy r.command then [SummaryItem.codeBlock (r.command.getD "") "bash"] else []) ++
  (if r.hasStdout then
    [SummaryItem.heading "STDOUT" 4, SummaryItem.codeBlock (r.stdout.getD "") "text"]
   else []) ++
  (if r.hasStderr then
    [SummaryItem.heading "STDERR" 4, SummaryItem.codeBlock (r.stderr.getD "") "text"]
   else []) ++
  [SummaryItem.brk]

/-- The full summary document: the initial heading and raw line added
when the buffer is created, the table, a break, and the detail
sections in record order. -/
def summaryDoc (results : List TaskResult) : List SummaryItem :=
  [SummaryItem.heading "Moon CI Retrospect Results" 1,
   SummaryItem.raw "This report shows the results of Moon CI task executions.\n",
   SummaryItem.table (tableHeader :: results.map tableRow),
   SummaryItem.brk] ++
  results.flatMap detailSection

/-- The two candidate report file names, in priority order. -/
def reportCandidates : List String := ["ciReport.json", "runReport.json"]

/-- The `loadReport` loop over the candidates: on the first existing
path, parse it (`parseEA` may fail on malformed content); record which
paths were actually handed to the JSON parser. -/
def loadReportLoop (fs : FileSystem) (parseEA : String → Except String RunReport)
    (root : String) : List String → Except String (Option RunReport) × List String
  | [] => (Except.ok none, [])
  | fileName :: rest =>
    let localPath := pathJoin ".moon/cache" fileName
    let reportPath := pathJoin root localPath
    if fileExists fs reportPath then
      ((parseEA reportPath).map some, [reportPath])
    else loadReportLoop fs parseEA root rest

/-- `loadReport`: parsed content of the first existing candidate,
`none` when no candidate exists, an error when parsing fails. -/
def loadReport (fs : FileSystem) (parseEA : String → Except String RunReport)
    (root : String) : Except String (Option RunReport) :=
  (loadReportLoop fs parseEA root reportCandidates).fst

/-- The paths `loadReport` actually read (handed to the JSON parser). -/
def loadReportParsedPaths (fs : FileSystem) (parseEA : String → Except String RunReport)
    (root : String) : List String :=
  (loadReportLoop fs parseEA root reportCandidates).snd

/-- The observable outcome of one `main` invocation. -/
structure MainOutput where
  warned : Bool
  consoleGroups : List ConsoleGroup
  publishedDocs : List (List SummaryItem)
deriving DecidableEq, Repr

/-- `main`: load the report (warn and return when absent), process the
actions, and publish the summary document exactly when running under
GitHub Actions with at least one task result
(`isGitHubActions && summary && taskResults.length > 0`; `summary` is
non-null exactly when `isGitHubActions`). -/
def mainRun (fs : FileSystem) (parseEA : String → Except String RunReport)
    (root : String) (isGitHubActions : Bool) : Except String MainOutput :=
  match loadReport fs parseEA root with
  | Except.error e => Except.error e
  | Except.ok none =>
    Except.ok { warned := true, consoleGroups := [], publishedDocs := [] }
  | Except.ok (some report) =>
    let processed := processActions fs root report.actions
    let taskResults := processed.fst
    Except.ok
      { warned := false,
        consoleGroups := processed.snd,
        publishedDocs :=
          if isGitHubActions ∧ 0 < taskResults.length
          then [summaryDoc taskResults] else [] }

/-- The top-level `try { await main() } catch (error) { console.error(error);
process.exit(0); }`: the exit code and the error log lines. -/
def topLevel (result : Except String MainOutput) : Nat × List String :=
  match result with
  | Except.ok _ => (0, [])
  | Except.error e => (0, [e])

/-- A concrete filesystem for evaluating the development on closed
inputs: one captured stdout log and both report candidates present
under workspace root `"ws"`. -/
def wFs : FileSystem :=
  ⟨fun p =>
    if p = "ws/.moon/cache/states/app/build/stdout.log" then some " ok \n"
    else if p = "ws/.moon/cache/ciReport.json" then some "ci"
    else if p = "ws/.moon/cache/runReport.json" then some "run"
    else none⟩

/-- A concrete run-task action with a task-execution operation. -/
def wAction : Action :=
  { nodeAction := "run-task", target := "app:build", status := "passed",
    operations := [{ metaType := "task-execution", command := some "npm test" }] }

/-- A concrete run-task action whose target has no colon. -/
def wActionNoColon : Action :=
  { nodeAction := "run-task", target := "proj", status := "passed", operations := [] }

/-- A JSON parser that always succeeds with an empty report. -/
def wParse : String → Except String RunReport := fun _ => Except.ok { actions := [] }

/-- A JSON parser that always fails, standing for a malformed report. -/
def wParseBad : String → Except String RunReport := fun _ => Except.error "malformed"

example : parseTarget "appA:build" = { project := "appA", task := "build" } := by decide

example : parseTarget "onlyproject" = { project := "onlyproject", task := "unknown" } := by decide

example : parseTarget "" = { project := "", task := "unknown" } := by decide

example : parseTarget "a:b:c" = { project := "a", task := "b" } := by decide

example : sanitizeProjectName "libs/ui" = "libs-ui" := by decide

theorem splitChars_ne_nil (sep : Char) (l : List Char) : splitChars sep l ≠ [] := by
  induction l with
  | nil => simp [splitChars]
  | cons c cs ih =>
    by_cases h : c = sep
    · simp [splitChars, h]
    · simp only [splitChars, if_neg h]
      cases hs : splitChars sep cs with
      | nil => simp
      | cons r rs => simp

theorem splitChars_head (sep : Char) (l : List Char) :
    (splitChars sep l).head? = some (l.takeWhile (fun c => c != sep)) := by
  induction l with
  | nil => simp [splitChars]
  | cons c cs ih =>
    by_cases h : c = sep
    · subst h
      simp [splitChars, List.takeWhile_cons]
    · have hne := splitChars_ne_nil sep cs
      cases hs : splitChars sep cs with
      | nil => exact absurd hs hne
      | cons r rs =>
        rw [hs] at ih
        simp only [List.head?] at ih
        simp only [splitChars, if_neg h, hs, List.head?, List.takeWhile_cons]
        simp [h, Option.some.injEq] at ih ⊢
        exact ih

theorem splitChars_get?_one (sep : Char) (l : List Char) :
    (splitChars sep l).get? 1 =
      if l.contains sep then
        some (((l.dropWhile (fun c => c != sep)).drop 1).takeWhile (fun c => c != sep))
      else none := by
  induction l with
  | nil => simp [splitChars]
  | cons c cs ih =>
    by_cases h : c = sep
    · subst h
      have hh := splitChars_head c cs
      simp [splitChars, List.dropWhile_cons, List.contains_cons]
      cases hs : splitChars c cs with
      | nil => exact absurd hs (splitChars_ne_nil c cs)
      | cons r rs =>
        rw [hs] at hh
        simp at hh
        simp [hh]
    · have hne := splitChars_ne_nil sep cs
      cases hs : splitChars sep cs with
      | nil => exact absurd hs hne
      | cons r rs =>
        rw [hs] at ih
        simp only [splitChars, if_neg h, hs]
        simp only [List.get?_cons_succ] at ih ⊢
        rw [ih]
        have hcs : ¬sep = c := fun hh => h hh.symm
        simp [List.contains_cons, List.dropWhile_cons, h, hcs]

theorem splitChars_no_sep (sep : Char) (l : List Char) (h : sep ∉ l) :
    splitChars sep l = [l] := by
  induction l with
  | nil => rfl
  | cons c cs ih =>
    have hc : ¬c = sep := fun hc => h (hc ▸ List.mem_cons_self c cs)
    have hcs : sep ∉ cs := fun hm => h (List.mem_cons_of_mem c hm)
    simp only [splitChars, if_neg hc, ih hcs]

theorem parseTarget_project (target : String) :
    (parseTarget target).project = String.mk (target.data.takeWhile (fun c => c != ':')) := by
  unfold parseTarget jsSplit
  cases hs : splitChars ':' target.data with
  | nil => exact absurd hs (splitChars_ne_nil ':' target.data)
  | cons r rs =>
    have hh := splitChars_head ':' target.data
    rw [hs] at hh
    simp only [List.head?, Option.some.injEq] at hh
    simp [hs, hh]

theorem parseTarget_task (target : String) :
    (parseTarget target).task =
      (if target.data.contains ':' then
        String.mk (((target.data.dropWhile (fun c => c != ':')).drop 1).takeWhile (fun c => c != ':'))
       else "unknown") := by
  unfold parseTarget jsSplit
  have h1 := splitChars_get?_one ':' target.data
  rw [List.get?_eq_getElem?] at h1
  by_cases hc : target.data.contains ':'
  · rw [if_pos hc] at h1 ⊢
    simp [List.getElem?_map, h1]
  · rw [if_neg hc] at h1 ⊢
    simp [List.getElem?_map, h1]

theorem processActions_eq (fs : FileSystem) (root : String) (actions : List Action) :
    processActions fs root actions =
      ((actions.filter (fun a => a.nodeAction == "run-task")).map (makeTaskResult fs root),
       (actions.filter (fun a => a.nodeAction == "run-task")).map
         (fun a => renderConsole (makeTaskResult fs root a))) := by
  induction actions with
  | nil => rfl
  | cons a rest ih =>
    simp only [processActions, List.filter_cons]
    by_cases h : a.nodeAction = "run-task"
    · simp [h, ih]
    · simp [h, ih]

theorem getD_of_isSome_ite (o : Option String) :
    (if o.isSome then o.getD "" else "") = o.getD "" := by
  cases o <;> rfl

theorem output_presence_aux (o : String) :
    ((if jsTrim o != "" then some o else none).isSome = true ↔ jsTrim o ≠ "") ∧
    (∀ s, (if jsTrim o != "" then some o else none) = some s → s = o) := by
  by_cases h : jsTrim o = ""
  · simp [h]
  · simp [h]

theorem pathJoin_ne (root a b : String) (h : a ≠ b) : pathJoin root a ≠ pathJoin root b := by
  intro he
  apply h
  apply String.ext
  have hd : (root ++ "/" ++ a).data = (root ++ "/" ++ b).data := congrArg String.data he
  rw [String.data_append, String.data_append, String.data_append, String.data_append] at hd
  exact List.append_cancel_left hd

theorem getStatusEmoji_unrecognized (s : String) (hs : s ∉ actionStatusValues) :
    getStatusEmoji s = "❓" := by
  simp only [actionStatusValues, List.mem_cons, List.not_mem_nil, or_false, not_or] at hs
  obtain ⟨h1, h2, h3, h4, h5, h6, h7, h8, h9, h10⟩ := hs
  simp [getStatusEmoji, h1, h2, h3, h4, h5, h6, h7, h8, h9, h10]

theorem statusBadges_unrecognized (s : String) (hs : s ∉ actionStatusValues) :
    statusBadges s = none := by
  simp only [actionStatusValues, List.mem_cons, List.not_mem_nil, or_false, not_or] at hs
  obtain ⟨h1, h2, h3, h4, h5, h6, h7, h8, h9, h10⟩ := hs
  simp [statusBadges, h1, h2, h3, h4, h5, h6, h7, h8, h9, h10]

theorem statusBadges_known (s : String) (hs : s ∈ actionStatusValues) :
    ∃ l, statusBadges s = some l ∧ l ≠ "" := by
  fin_cases hs <;> exact ⟨_, rfl, by decide⟩

theorem getStatusEmoji_ne_empty (s : String) : getStatusEmoji s ≠ "" := by
  by_cases hs : s ∈ actionStatusValues
  · fin_cases hs <;> decide
  · rw [getStatusEmoji_unrecognized s hs]; decide

/-- C1 counterexample: parsing the empty target yields project `""`,
not `"unknown"` — JS `"".split(":")` is `[""]`, so `parts[0]` is the
empty string and the `?? "unknown"` default never applies to the
project part. -/
theorem parseTarget_empty_counterexample :
    parseTarget "" = { project := "", task := "unknown" } ∧
    parseTarget "" ≠ ({ project := "unknown", task := "unknown" } : TargetIdentity) := by
  decide

/-- C1 (amended): `parseTarget` splits the target on every colon and
keeps the first two segments: the project is the (possibly empty)
segment before the first colon and is never defaulted, while the task is
the segment between the first and second colons, defaulting to
`"unknown"` exactly when the string has no colon; `"appA:build"` gives
`{appA, build}`, `"onlyproject"` gives `{onlyproject, unknown}`, and
`""` gives `{project := "", task := "unknown"}`. -/
theorem parseTarget_spec_amended (target : String) :
    (parseTarget target).project = String.mk (target.data.takeWhile (fun c => c != ':')) ∧
    (parseTarget target).task =
      (if target.data.contains ':' then
        String.mk (((target.data.dropWhile (fun c => c != ':')).drop 1).takeWhile (fun c => c != ':'))
       else "unknown") ∧
    parseTarget "appA:build" = { project := "appA", task := "build" } ∧
    parseTarget "onlyproject" = { project := "onlyproject", task := "unknown" } ∧
    parseTarget "" = { project := "", task := "unknown" } :=
  ⟨parseTarget_project target, parseTarget_task target, by decide, by decide, by decide⟩

/-- C2 counterexample: the console badge record has no entry for a
status outside the `ActionStatus` enumeration — the lookup yields
`undefined` (`none`), not an "unknown" label. -/
theorem statusBadges_unrecognized_counterexample :
    statusBadges "not-a-status" = none := by
  decide

/-- C2 (amended): `getStatusEmoji` is total and returns a non-empty
emoji for every status value, with `❓` for unrecognized ones; the
console badge record returns a non-empty label for each of the ten
enumerated statuses, but its lookup yields no label (`undefined`) for
any value outside the enumeration. -/
theorem classifier_totality_amended (s : String) :
    getStatusEmoji s ≠ "" ∧
    (s ∈ actionStatusValues → ∃ l, statusBadges s = some l ∧ l ≠ "") ∧
    (s ∉ actionStatusValues → statusBadges s = none) :=
  ⟨getStatusEmoji_ne_empty s, statusBadges_known s, statusBadges_unrecognized s⟩

/-- C2 witness: the amended classifier theorem evaluated at the known
status `"passed"` and at a value outside the enumeration. -/
theorem classifier_totality_amended_witness :
    (∃ l, statusBadges "passed" = some l ∧ l ≠ "") ∧
    statusBadges "definitely-new-status" = none :=
  ⟨(classifier_totality_amended "passed").2.1 (by decide),
   (classifier_totality_amended "definitely-new-status").2.2 (by decide)⟩

/-- C9: `getStatusEmoji` maps passed to ✅; failed, timed-out, aborted,
invalid and failed-and-abort to ❌; skipped to ⏭️; cached and
cached-from-remote to 💾; running to 🏃; and any other value to ❓. -/
theorem getStatusEmoji_mapping :
    getStatusEmoji "passed" = "✅" ∧
    getStatusEmoji "failed" = "❌" ∧
    getStatusEmoji "timed-out" = "❌" ∧
    getStatusEmoji "aborted" = "❌" ∧
    getStatusEmoji "invalid" = "❌" ∧
    getStatusEmoji "failed-and-abort" = "❌" ∧
    getStatusEmoji "skipped" = "⏭️" ∧
    getStatusEmoji "cached" = "💾" ∧
    getStatusEmoji "cached-from-remote" = "💾" ∧
    getStatusEmoji "running" = "🏃" ∧
    (∀ s : String, s ∉ actionStatusValues → getStatusEmoji s = "❓") :=
  ⟨by decide, by decide, by decide, by decide, by decide, by decide, by decide,
   by decide, by decide, by decide, getStatusEmoji_unrecognized⟩

/-- C9 witness: the fallback arm of the emoji mapping evaluated at a
value outside the enumeration. -/
theorem getStatusEmoji_mapping_witness :
    getStatusEmoji "certainly-not-a-status" = "❓" :=
  getStatusEmoji_mapping.2.2.2.2.2.2.2.2.2.2 "certainly-not-a-status" (by decide)

/-- C7: `readStatus` reads `stdout.log` and `stderr.log` from
`<root>/.moon/cache/states/<sanitized-project>/<task>/`, where
sanitization turns every `/` of the project name into `-` (so
`"libs/ui"` becomes `"libs-ui"`); the two reads are independent and a
missing file yields the empty string for its stream. -/
theorem readStatus_paths (fs : FileSystem) (root project task : String) :
    readStatus fs root { project, task } =
      ((fs.read (root ++ "/.moon/cache/states/" ++
          String.mk (project.data.map fun c => if c = '/' then '-' else c) ++
          "/" ++ task ++ "/stdout.log")).getD "",
       (fs.read (root ++ "/.moon/cache/states/" ++
          String.mk (project.data.map fun c => if c = '/' then '-' else c) ++
          "/" ++ task ++ "/stderr.log")).getD "") ∧
    sanitizeProjectName "libs/ui" = "libs-ui" := by
  constructor
  · simp only [readStatus, fileExists, getD_of_isSome_ite]
    rfl
  · decide

/-- C3: every record produced by the processing loop comes from some
action, and its `stdout` field is present exactly when the captured
stdout text is non-empty after trimming, the stored value being the
original untrimmed text; likewise for `stderr`. -/
theorem taskResult_output_presence (fs : FileSystem) (root : String)
    (actions : List Action) (r : TaskResult)
    (hr : r ∈ (processActions fs root actions).fst) :
    ∃ a, a ∈ actions ∧ r = makeTaskResult fs root a ∧
      (r.stdout.isSome = true ↔
        jsTrim (readStatus fs root (parseTarget a.target)).fst ≠ "") ∧
      (∀ s, r.stdout = some s → s = (readStatus fs root (parseTarget a.target)).fst) ∧
      (r.stderr.isSome = true ↔
        jsTrim (readStatus fs root (parseTarget a.target)).snd ≠ "") ∧
      (∀ s, r.stderr = some s → s = (readStatus fs root (parseTarget a.target)).snd) := by
  rw [processActions_eq] at hr
  obtain ⟨a, ha, rfl⟩ := List.mem_map.mp hr
  refine ⟨a, List.mem_of_mem_filter ha, rfl, ?_, ?_, ?_, ?_⟩
  · exact (output_presence_aux (readStatus fs root (parseTarget a.target)).fst).1
  · exact (output_presence_aux (readStatus fs root (parseTarget a.target)).fst).2
  · exact (output_presence_aux (readStatus fs root (parseTarget a.target)).snd).1
  · exact (output_presence_aux (readStatus fs root (parseTarget a.target)).snd).2

/-- C3 witness: the presence theorem evaluated on a concrete action
whose stdout log holds `" ok \n"` and whose stderr log is absent. -/
theorem taskResult_output_presence_witness :
    ∃ a, a ∈ [wAction] ∧ makeTaskResult wFs "ws" wAction = makeTaskResult wFs "ws" a ∧
      ((makeTaskResult wFs "ws" wAction).stdout.isSome = true ↔
        jsTrim (readStatus wFs "ws" (parseTarget a.target)).fst ≠ "") ∧
      (∀ s, (makeTaskResult wFs "ws" wAction).stdout = some s →
        s = (readStatus wFs "ws" (parseTarget a.target)).fst) ∧
      ((makeTaskResult wFs "ws" wAction).stderr.isSome = true ↔
        jsTrim (readStatus wFs "ws" (parseTarget a.target)).snd ≠ "") ∧
      (∀ s, (makeTaskResult wFs "ws" wAction).stderr = some s →
        s = (readStatus wFs "ws" (parseTarget a.target)).snd) :=
  taskResult_output_presence wFs "ws" [wAction]
    (makeTaskResult wFs "ws" wAction) (by decide)

/-- C5: the loop emits exactly one record per `run-task` action of the
report, in report order, with no sorting or reordering; the console
groups are the records rendered in that same order, and the summary
document presents one table row per record and the detail sections in
that same order. -/
theorem order_preservation (fs : FileSystem) (root : String) (actions : List Action) :
    (processActions fs root actions).fst =
      (actions.filter (fun a => a.nodeAction == "run-task")).map (makeTaskResult fs root) ∧
    (processActions fs root actions).fst.length =
      (actions.filter (fun a => a.nodeAction == "run-task")).length ∧
    (processActions fs root actions).snd =
      (processActions fs root actions).fst.map renderConsole ∧
    summaryDoc (processActions fs root actions).fst =
      [SummaryItem.heading "Moon CI Retrospect Results" 1,
       SummaryItem.raw "This report shows the results of Moon CI task executions.\n",
       SummaryItem.table (tableHeader :: (processActions fs root actions).fst.map tableRow),
       SummaryItem.brk] ++
      (processActions fs root actions).fst.flatMap detailSection := by
  refine ⟨?_, ?_, ?_, rfl⟩
  · rw [processActions_eq]
  · rw [processActions_eq]
    simp
  · rw [processActions_eq]
    simp [List.map_map]

/-- C6: `loadReport` checks `ciReport.json` then `runReport.json` under
`.moon/cache` in that order and parses the first existing one; with
both present `ciReport.json` wins and `runReport.json` is never read;
with neither present it returns the no-report signal. -/
theorem loadReport_priority (fs : FileSystem)
    (parseEA : String → Except String RunReport) (root : String) :
    (fileExists fs (pathJoin root (pathJoin ".moon/cache" "ciReport.json")) = true →
       loadReport fs parseEA root =
         (parseEA (pathJoin root (pathJoin ".moon/cache" "ciReport.json"))).map some ∧
       loadReportParsedPaths fs parseEA root =
         [pathJoin root (pathJoin ".moon/cache" "ciReport.json")] ∧
       pathJoin root (pathJoin ".moon/cache" "runReport.json") ∉
         loadReportParsedPaths fs parseEA root) ∧
    (fileExists fs (pathJoin root (pathJoin ".moon/cache" "ciReport.json")) = false →
     fileExists fs (pathJoin root (pathJoin ".moon/cache" "runReport.json")) = true →
       loadReport fs parseEA root =
         (parseEA (pathJoin root (pathJoin ".moon/cache" "runReport.json"))).map some ∧
       loadReportParsedPaths fs parseEA root =
         [pathJoin root (pathJoin ".moon/cache" "runReport.json")]) ∧
    (fileExists fs (pathJoin root (pathJoin ".moon/cache" "ciReport.json")) = false →
     fileExists fs (pathJoin root (pathJoin ".moon/cache" "runReport.json")) = false →
       loadReport fs parseEA root = Except.ok none ∧
       loadReportParsedPaths fs parseEA root = []) := by
  refine ⟨?_, ?_, ?_⟩
  · intro h1
    have e1 : loadReportLoop fs parseEA root reportCandidates =
        ((parseEA (pathJoin root (pathJoin ".moon/cache" "ciReport.json"))).map some,
         [pathJoin root (pathJoin ".moon/cache" "ciReport.json")]) := by
      simp [reportCandidates, loadReportLoop, h1]
    refine ⟨?_, ?_, ?_⟩
    · unfold loadReport
      rw [e1]
    · unfold loadReportParsedPaths
      rw [e1]
    · unfold loadReportParsedPaths
      rw [e1]
      simp only [List.mem_singleton]
      exact pathJoin_ne root _ _ (by decide)
  · intro h1 h2
    have e1 : loadReportLoop fs parseEA root reportCandidates =
        ((parseEA (pathJoin root (pathJoin ".moon/cache" "runReport.json"))).map some,
         [pathJoin root (pathJoin ".moon/cache" "runReport.json")]) := by
      simp [reportCandidates, loadReportLoop, h1, h2]
    exact ⟨by unfold loadReport; rw [e1], by unfold loadReportParsedPaths; rw [e1]⟩
  · intro h1 h2
    have e1 : loadReportLoop fs parseEA root reportCandidates =
        (Except.ok none, []) := by
      simp [reportCandidates, loadReportLoop, h1, h2]
    exact ⟨by unfold loadReport; rw [e1], by unfold loadReportParsedPaths; rw [e1]⟩

/-- C6 witness: the priority theorem evaluated on a filesystem where
both report candidates exist. -/
theorem loadReport_priority_witness :
    loadReport wFs wParse "ws" =
      (wParse (pathJoin "ws" (pathJoin ".moon/cache" "ciReport.json"))).map some ∧
    loadReportParsedPaths wFs wParse "ws" =
      [pathJoin "ws" (pathJoin ".moon/cache" "ciReport.json")] ∧
    pathJoin "ws" (pathJoin ".moon/cache" "runReport.json") ∉
      loadReportParsedPaths wFs wParse "ws" :=
  (loadReport_priority wFs wParse "ws").1 (by decide)

/-- C4: the summary document is published exactly once when the GitHub
Actions flag is set and at least one task result was produced, and never
otherwise; in particular a loaded report with zero `run-task` actions
publishes nothing and emits no console groups even when the flag is
set. -/
theorem summary_publish_condition (fs : FileSystem)
    (parseEA : String → Except String RunReport) (root : String) (flag : Bool) :
    (∀ out, mainRun fs parseEA root flag = Except.ok out →
       out.publishedDocs.length ≤ 1 ∧ (out.publishedDocs ≠ [] → flag = true)) ∧
    (∀ report, loadReport fs parseEA root = Except.ok (some report) →
       ∃ out, mainRun fs parseEA root flag = Except.ok out ∧
         out.publishedDocs =
           (if flag = true ∧ (processActions fs root report.actions).fst ≠ []
            then [summaryDoc (processActions fs root report.actions).fst] else []) ∧
         (report.actions.filter (fun a => a.nodeAction == "run-task") = [] →
            out.publishedDocs = [] ∧ out.consoleGroups = [])) := by
  constructor
  · intro out hout
    unfold mainRun at hout
    cases hl : loadReport fs parseEA root with
    | error e =>
      rw [hl] at hout
      exact absurd hout (by simp)
    | ok o =>
      cases o with
      | none =>
        rw [hl] at hout
        simp only [Except.ok.injEq] at hout
        subst hout
        simp
      | some report =>
        rw [hl] at hout
        simp only [Except.ok.injEq] at hout
        subst hout
        by_cases hcond : flag = true ∧ 0 < (processActions fs root report.actions).fst.length
        · simp [hcond]
        · simp [hcond]
  · intro report hl
    refine ⟨{ warned := false,
              consoleGroups := (processActions fs root report.actions).snd,
              publishedDocs :=
                if flag ∧ 0 < (processActions fs root report.actions).fst.length
                then [summaryDoc (processActions fs root report.actions).fst] else [] },
            ?_, ?_, ?_⟩
    · unfold mainRun
      rw [hl]
    · by_cases h1 : flag = true
      · by_cases h2 : (processActions fs root report.actions).fst = []
        · simp [h1, h2]
        · have hlen : 0 < (processActions fs root report.actions).fst.length :=
            List.length_pos.mpr h2
          simp [h1, h2, hlen]
      · simp [h1]
    · intro hfilter
      have hfst : (processActions fs root report.actions).fst = [] := by
        rw [processActions_eq]
        simp [hfilter]
      have hsnd : (processActions fs root report.actions).snd = [] := by
        rw [processActions_eq]
        simp [hfilter]
      simp [hfst, hsnd]

/-- C4 witness: the publication theorem evaluated with the flag set and
a loaded report containing zero actions: nothing is published and no
console group is emitted. -/
theorem summary_publish_condition_witness :
    ∃ out, mainRun wFs wParse "ws" true = Except.ok out ∧
      out.publishedDocs =
        (if (true : Bool) = true ∧
            (processActions wFs "ws" (RunReport.mk []).actions).fst ≠ []
         then [summaryDoc (processActions wFs "ws" (RunReport.mk []).actions).fst]
         else []) ∧
      ((RunReport.mk []).actions.filter (fun a => a.nodeAction == "run-task") = [] →
         out.publishedDocs = [] ∧ out.consoleGroups = []) :=
  (summary_publish_condition wFs wParse "ws" true).2 (RunReport.mk []) (by rfl)

/-- C8: the top-level boundary maps every outcome of `main` — success
or escaped error, including a malformed report propagated out of
`loadReport` — to exit code 0, logging the error when there is one; a
missing report is only a warning (`warned := true`) followed by a
normal return with no output. -/
theorem top_level_failure_policy (fs : FileSystem)
    (parseEA : String → Except String RunReport) (root : String) (flag : Bool) :
    (topLevel (mainRun fs parseEA root flag)).fst = 0 ∧
    (∀ e, mainRun fs parseEA root flag = Except.error e →
       topLevel (mainRun fs parseEA root flag) = (0, [e])) ∧
    (∀ e, loadReport fs parseEA root = Except.error e →
       mainRun fs parseEA root flag = Except.error e) ∧
    (loadReport fs parseEA root = Except.ok none →
       mainRun fs parseEA root flag =
         Except.ok { warned := true, consoleGroups := [], publishedDocs := [] }) := by
  refine ⟨?_, ?_, ?_, ?_⟩
  · cases h : mainRun fs parseEA root flag <;> rfl
  · intro e he
    rw [he]
    rfl
  · intro e he
    unfold mainRun
    rw [he]
  · intro h
    unfold mainRun
    rw [h]

/-- C8 witness: the failure policy evaluated with a parser that fails
on the present report file: the error escapes `main`, is logged, and
the exit code is 0. -/
theorem top_level_failure_policy_witness :
    mainRun wFs wParseBad "ws" true = Except.error "malformed" ∧
    topLevel (mainRun wFs wParseBad "ws" true) = (0, ["malformed"]) :=
  ⟨(top_level_failure_policy wFs wParseBad "ws" true).2.2.1 "malformed" (by rfl),
   (top_level_failure_policy wFs wParseBad "ws" true).2.1 "malformed"
     ((top_level_failure_policy wFs wParseBad "ws" true).2.2.1 "malformed" (by rfl))⟩

/-- C10: the target stored in a record (and placed as the first cell of
its summary table row) is the re-joined `project ++ ":" ++ task` of the
parsed identity, not the original target; a target without a colon
gains a `":unknown"` suffix, and from a target with more than one colon
everything after the second segment is dropped. -/
theorem target_reserialization (fs : FileSystem) (root : String) (action : Action) :
    (makeTaskResult fs root action).target =
      (parseTarget action.target).project ++ ":" ++ (parseTarget action.target).task ∧
    (tableRow (makeTaskResult fs root action)).head? =
      some ((makeTaskResult fs root action).target, false) ∧
    (':' ∉ action.target.data →
      (makeTaskResult fs root action).target = action.target ++ ":unknown") ∧
    (parseTarget "proj").project ++ ":" ++ (parseTarget "proj").task = "proj:unknown" ∧
    (parseTarget "a:b:c").project ++ ":" ++ (parseTarget "a:b:c").task = "a:b" := by
  refine ⟨rfl, rfl, ?_, by decide, by decide⟩
  intro h
  show (parseTarget action.target).project ++ ":" ++ (parseTarget action.target).task = _
  unfold parseTarget jsSplit
  rw [splitChars_no_sep ':' action.target.data h]
  have hmk : String.mk action.target.data = action.target := rfl
  simp [hmk]
  rw [String.append_assoc]
  have hcol : (":" : String) ++ "unknown" = ":unknown" := by decide
  rw [hcol]

/-- C10 witness: the re-serialization theorem evaluated on a concrete
action whose target `"proj"` has no colon. -/
theorem target_reserialization_witness :
    (makeTaskResult wFs "ws" wActionNoColon).target = wActionNoColon.target ++ ":unknown" :=
  (target_reserialization wFs "ws" wActionNoColon).2.2.1 (by decide)

end Retrospect
